import Mathlib

/-!
Verification of the cs2-api worker pipeline against its specification.

The development shallowly embeds the two parts of the source that the
claims are about:

* `src/utils/gamemode-detector.js` — the pure gamemode classifier
  (`detectGamemode`), modelled by `detectFrom` / `detectGamemode` below
  together with the JavaScript string helpers (`toLowerCase`,
  `startsWith`, `includes`, `split(',')`).

* `src/api/index.js` — the state reconciler inside `serverWorker`
  (the Hit path at lines 429-469, the Miss/offline path at lines 471-519)
  and the `cleanupWorker` reaper (lines 523-546), modelled by
  `reconcileHit`, `reconcileMiss` and `sweep` over a `ServerRecord`
  structure mirroring the database row the worker writes.

Timestamps are modelled as integers (`Int`); for the reaper the unit is
days, matching the `setDate`-based cutoff computation in the source.
-/

namespace CS2

/-! ## JavaScript string helpers

`charsPre p s` is `true` when the character list `p` is an initial
segment of `s` (JS `s.startsWith(p)`); `charsSub p s` is `true` when `p`
occurs contiguously inside `s` (JS `s.includes(p)`). -/

def charsPre : List Char → List Char → Bool
  | [], _ => true
  | _ :: _, [] => false
  | a :: as, b :: bs => a == b && charsPre as bs

def charsSub (p : List Char) : List Char → Bool
  | [] => charsPre p []
  | c :: rest => charsPre p (c :: rest) || charsSub p rest

/-- JS `s.startsWith(pat)`. -/
def strHasPre (s pat : String) : Bool := charsPre pat.toList s.toList

/-- JS `s.includes(pat)`. -/
def strHasSub (s pat : String) : Bool := charsSub pat.toList s.toList

/-- JS `s.toLowerCase()` restricted to ASCII, which is what
`Char.toLower` implements and what the detector's literals need. -/
def strLower (s : String) : String := String.mk (s.toList.map Char.toLower)

/-- Helper for `splitComma`: `acc` holds the characters of the current
token in reverse. -/
def splitCommaAux (acc : List Char) : List Char → List String
  | [] => [String.mk acc.reverse]
  | c :: cs =>
    if c == ',' then String.mk acc.reverse :: splitCommaAux [] cs
    else splitCommaAux (c :: acc) cs

/-- JS `s.split(',')`. -/
def splitComma (s : String) : List String := splitCommaAux [] s.toList

/-! ## Gamemode classifier (`src/utils/gamemode-detector.js`) -/

/-- The input of `detectGamemode`: `serverData.name`, `serverData.map`
and `serverData.raw?.tags`, which may be an array (`Sum.inl`), a string
(`Sum.inr`) or absent/other (`none`).  The bound-but-unused `rules`
field of the source is omitted. -/
structure ServerData where
  name : Option String
  map : Option String
  rawTags : Option (Sum (List String) String)
deriving Repr

/-- JS `(x || '')` on an optional string. -/
def orEmpty : Option String → String
  | some s => s
  | none => ""

/-- Lines 7-9 of the detector: `Array.isArray(tags) ? tags
: (typeof tags === 'string' ? tags.split(',') : [])`. -/
def tagTokens : Option (Sum (List String) String) → List String
  | some (Sum.inl l) => l
  | some (Sum.inr s) => splitComma s
  | none => []

/-- The rule chain of `detectGamemode` (lines 14-94), over the already
lowercased `name`/`map` and the token list `tags`. -/
def detectFrom (name map : String) (tags : List String) : String :=
  if strHasPre map "surf_" || strHasSub name "surf" || tags.any (fun t => strHasSub t "surf") then
    "surf"
  else if strHasPre map "bhop_" || strHasSub name "bhop" || strHasSub name "bunnyhop" ||
      tags.any (fun t => strHasSub t "bhop" || strHasSub t "bunnyhop") then
    "bhop"
  else if strHasPre map "ze_" || strHasSub name "zombie" || strHasSub name "ze " ||
      tags.any (fun t => strHasSub t "ze" || strHasSub t "zombie") then
    "ze"
  else if strHasPre map "kz_" || strHasSub name " kz" || strHasSub name "climb" ||
      tags.any (fun t => strHasSub t "kz" || strHasSub t "climb") then
    "kz"
  else if strHasSub name "deathmatch" || strHasSub name " dm " ||
      tags.any (fun t => strHasSub t "dm" || strHasSub t "deathmatch") then
    "dm"
  else if strHasSub name "retake" || tags.any (fun t => strHasSub t "retake") then
    "retake"
  else if strHasSub name "awp" || strHasPre map "awp_" || tags.any (fun t => strHasSub t "awp") then
    "awp"
  else if strHasPre map "aim_" || strHasSub name "aim" || strHasSub name "1v1" ||
      tags.any (fun t => strHasSub t "aim" || strHasSub t "1v1") then
    "aim"
  else if strHasPre map "jb_" || strHasSub name "jail" || strHasSub name "jailbreak" ||
      tags.any (fun t => strHasSub t "jail" || strHasSub t "jb") then
    "jb"
  else if strHasSub name "gungame" || strHasSub name "arms race" ||
      tags.any (fun t => strHasSub t "gungame" || strHasSub t "gg") then
    "gungame"
  else if (strHasPre map "surf_" || strHasSub name "surf") &&
      (strHasSub name "combat" || strHasSub name "dm") then
    "csurf"
  else if strHasSub name "minigame" || strHasPre map "mg_" ||
      tags.any (fun t => strHasSub t "minigame" || strHasSub t "mg") then
    "mg"
  else if strHasSub name "hide" || strHasSub name "prop hunt" ||
      tags.any (fun t => strHasSub t "hide" || strHasSub t "hns") then
    "hns"
  else
    "public"

/-- `detectGamemode(serverData)`: lowercase name and map (lines 5-6),
compute the tag token list (lines 7-9), then run the rule chain. -/
def detectGamemode (d : ServerData) : String :=
  detectFrom (strLower (orEmpty d.name)) (strLower (orEmpty d.map)) (tagTokens d.rawTags)

/-- The results the rule chain can actually produce; `"csurf"` is not
among them. -/
def gamemodeResults : List String :=
  ["surf", "bhop", "ze", "kz", "dm", "retake", "awp", "aim", "jb", "gungame", "mg", "hns", "public"]

/-! ## Server records and the state reconciler (`src/api/index.js`) -/

inductive Status where
  | online
  | offline
deriving DecidableEq, Repr

/-- One row of the `servers` table, restricted to the columns the worker
reads or writes.  `first_seen` is never part of a worker write; it is
kept to express frame conditions.  Timestamps are `Int`. -/
structure ServerRecord where
  addr : String
  ip : String
  port : Nat
  query_port : Nat
  steam_id : Option String
  name : String
  map : String
  gamemode : String
  password : Bool
  vac : Bool
  version : Option String
  players : Nat
  max_players : Nat
  bots : Nat
  ping : Int
  status : Status
  offline_since : Option Int
  seen_count : Nat
  missed_count : Nat
  updated_at : Int
  first_seen : Int
deriving DecidableEq, Repr

/-- The metadata part of the `serverRecord` object built at lines
429-450 after a successful probe: every field of that literal except
`status`/`offline_since`/`seen_count`/`missed_count`/`updated_at`,
already evaluated (e.g. `port` is the parsed connect port, `players`
the length of the player list). -/
structure HitPayload where
  addr : String
  ip : String
  port : Nat
  query_port : Nat
  steam_id : Option String
  name : String
  map : String
  gamemode : String
  password : Bool
  vac : Bool
  version : Option String
  players : Nat
  max_players : Nat
  bots : Nat
  ping : Int
deriving DecidableEq, Repr

/-- The `upsert` at lines 453-460 with `onConflict: 'addr'`: the
payload's present fields replace the stored ones; `seen_count` is
`undefined` in the payload (line 447) so the stored value is kept, and
`first_seen` is absent from the payload so it is kept as well.  On
insert the table defaults apply; the schema is not in the repository,
so the defaults are modelled from the spec's `unknown + Hit` row
(`seenCount` becomes 1 after the increment, `firstSeen = now`):
`seen_count` defaults to 0 and `first_seen` to the insert time. -/
def hitUpsert (p : HitPayload) (now : Int) (prev : Option ServerRecord) : ServerRecord :=
  { addr := p.addr
    ip := p.ip
    port := p.port
    query_port := p.query_port
    steam_id := p.steam_id
    name := p.name
    map := p.map
    gamemode := p.gamemode
    password := p.password
    vac := p.vac
    version := p.version
    players := p.players
    max_players := p.max_players
    bots := p.bots
    ping := p.ping
    status := Status.online
    offline_since := none
    seen_count := match prev with
      | some r => r.seen_count
      | none => 0
    missed_count := 0
    updated_at := now
    first_seen := match prev with
      | some r => r.first_seen
      | none => now }

/-- The `increment_server_seen_count` RPC (line 464):
`UPDATE servers SET seen_count = seen_count + 1 WHERE addr = ...`. -/
def incrementSeen (r : ServerRecord) : ServerRecord :=
  { r with seen_count := r.seen_count + 1 }

/-- Hit reconciliation with both store writes succeeding: the upsert at
lines 453-460 followed by the seen-count increment at line 464. -/
def reconcileHit (p : HitPayload) (now : Int) (prev : Option ServerRecord) : ServerRecord :=
  incrementSeen (hitUpsert p now prev)

/-- The probe-failure handler at lines 475-512: if no record exists,
nothing is written; otherwise `missed_count` is bumped, `seen_count`
zeroed, `updated_at` refreshed, and when the new missed count reaches
`serverOfflineThreshold` while the record is not already offline, the
record is demoted with `offline_since = now`. -/
def reconcileMiss (threshold : Nat) (now : Int) (prev : Option ServerRecord) :
    Option ServerRecord :=
  match prev with
  | none => none
  | some r =>
    let newMissed := r.missed_count + 1
    if threshold ≤ newMissed ∧ r.status ≠ Status.offline then
      some { r with
        missed_count := newMissed
        updated_at := now
        seen_count := 0
        status := Status.offline
        offline_since := some now }
    else
      some { r with
        missed_count := newMissed
        updated_at := now
        seen_count := 0 }

/-- The Hit path when the upsert returns a store error: the increment
RPC at line 464 runs before the error check at line 466, so the stored
`seen_count` is still bumped; the thrown error then lands in the catch
at line 471, which runs the probe-failure handler on the record. -/
def reconcileHitUpsertErr (threshold : Nat) (now : Int) (prev : Option ServerRecord) :
    Option ServerRecord :=
  reconcileMiss threshold now (prev.map incrementSeen)

/-! ## Reaper (`cleanupWorker`, lines 523-546) -/

/-- The delete condition of lines 531-535:
`.eq('status', 'offline').lt('offline_since', cutoff)`.  A SQL `NULL`
`offline_since` never satisfies the strict comparison. -/
def reapDelete (cutoff : Int) (r : ServerRecord) : Bool :=
  (r.status == Status.offline) &&
    (match r.offline_since with
      | some t => decide (t < cutoff)
      | none => false)

/-- `cleanupWorker.sweep`: the cutoff is `now` minus
`serverDeleteThresholdDays` (lines 524-525, `setDate`; time unit =
days), the bulk delete removes every matching row, and the deleted
count is returned (lines 531-540). -/
def sweep (retentionDays : Nat) (now : Int) (store : List ServerRecord) :
    List ServerRecord × Nat :=
  let cutoff := now - (retentionDays : Int)
  (store.filter (fun r => !(reapDelete cutoff r)),
   (store.filter (reapDelete cutoff)).length)

/-! ## Iterated misses and reachable states -/

/-- `k` consecutive Miss reconciliations, all timestamped `now`. -/
def applyMisses (threshold : Nat) (now : Int) : Nat → Option ServerRecord → Option ServerRecord
  | 0, s => s
  | k + 1, s => reconcileMiss threshold now (applyMisses threshold now k s)

/-- States of one address reachable through successful reconciliations,
starting from `unknown` (no record). -/
inductive Reach (threshold : Nat) : Option ServerRecord → Prop
  | init : Reach threshold none
  | hit (p : HitPayload) (now : Int) {s : Option ServerRecord} :
      Reach threshold s → Reach threshold (some (reconcileHit p now s))
  | miss (now : Int) {s : Option ServerRecord} :
      Reach threshold s → Reach threshold (reconcileMiss threshold now s)

/-- Mutual exclusivity of the two counters. -/
def counterExcl (r : ServerRecord) : Prop :=
  (0 < r.seen_count → r.missed_count = 0) ∧ (0 < r.missed_count → r.seen_count = 0)

def counterExclOpt : Option ServerRecord → Prop
  | none => True
  | some r => counterExcl r

/-! ## Concrete classifier inputs used by the scenario theorems -/

def dSurf : ServerData := { name := none, map := some "surf_kitsune", rawTags := none }

def dAwp : ServerData :=
  { name := some "Best AWP 1v1 Server", map := some "aim_arena", rawTags := none }

def dPub : ServerData := { name := some "casual pub", map := some "de_dust2", rawTags := none }

def dTagLower : ServerData :=
  { name := some "a", map := some "b", rawTags := some (Sum.inl ["surf"]) }

def dTagUpper : ServerData :=
  { name := some "a", map := some "b", rawTags := some (Sum.inl ["SURF"]) }

def dTagList : ServerData :=
  { name := some "n", map := some "m", rawTags := some (Sum.inl ["a", "b"]) }

/-! ## Classifier theorems -/

theorem mem_ite_results (c : Prop) (inst : Decidable c) (a b : String)
    (ha : a ∈ gamemodeResults) (hb : b ∈ gamemodeResults) :
    (@ite _ c inst a b) ∈ gamemodeResults := by
  by_cases h : c
  · rwa [if_pos h]
  · rwa [if_neg h]

/-- Every branch of the rule chain lands in `gamemodeResults`; the
`"csurf"` branch is unreachable because its map/name guard is subsumed
by the first (surf) rule's guard. -/
theorem detectFrom_mem_results (name map : String) (tags : List String) :
    detectFrom name map tags ∈ gamemodeResults := by
  unfold detectFrom
  by_cases h1 : (strHasPre map "surf_" || strHasSub name "surf" ||
      tags.any (fun t => strHasSub t "surf")) = true
  · rw [if_pos h1]; decide
  · rw [if_neg h1]
    simp only [Bool.or_eq_true, not_or] at h1
    refine mem_ite_results _ _ _ _ (by decide) ?_
    refine mem_ite_results _ _ _ _ (by decide) ?_
    refine mem_ite_results _ _ _ _ (by decide) ?_
    refine mem_ite_results _ _ _ _ (by decide) ?_
    refine mem_ite_results _ _ _ _ (by decide) ?_
    refine mem_ite_results _ _ _ _ (by decide) ?_
    refine mem_ite_results _ _ _ _ (by decide) ?_
    refine mem_ite_results _ _ _ _ (by decide) ?_
    refine mem_ite_results _ _ _ _ (by decide) ?_
    have h11 : ¬(((strHasPre map "surf_" || strHasSub name "surf") &&
        (strHasSub name "combat" || strHasSub name "dm")) = true) := by
      simp only [Bool.and_eq_true, Bool.or_eq_true]
      tauto
    rw [if_neg h11]
    exact mem_ite_results _ _ _ _ (by decide)
      (mem_ite_results _ _ _ _ (by decide) (by decide))

/-- C10: the classifier never returns the combat-surf tag `"csurf"`:
its result is always one of the thirteen values in `gamemodeResults`
(a list that does not contain `"csurf"`), and comparing the result with
`"csurf"` always yields `false`.  The combat-surf branch requires the
map to start with `surf_` or the name to contain `surf`, but any such
input already satisfied the earlier surf rule. -/
theorem detect_never_csurf (d : ServerData) :
    (detectGamemode d == "csurf") = false ∧ detectGamemode d ∈ gamemodeResults := by
  have hm : detectGamemode d ∈ gamemodeResults := by
    unfold detectGamemode
    exact detectFrom_mem_results _ _ _
  refine ⟨?_, hm⟩
  simp only [gamemodeResults, List.mem_cons, List.not_mem_nil, or_false] at hm
  rcases hm with h | h | h | h | h | h | h | h | h | h | h | h | h <;> rw [h] <;> decide

/-- C9: the three scenario inputs of the spec classify as `surf`,
`awp` (the awp rule precedes the aim rule) and the default `public`. -/
theorem classifier_scenarios :
    detectGamemode dSurf = "surf"
    ∧ detectGamemode dAwp = "awp"
    ∧ detectGamemode dPub = "public" := by
  exact ⟨by decide, by decide, by decide⟩

/-- C8, counterexample: tag tokens are not lowercased, so tag matching
is case-sensitive — two inputs differing only in the case of their tag
data classify differently (`["surf"]` matches the surf rule, `["SURF"]`
falls through to the default). -/
theorem tag_matching_case_sensitive :
    detectGamemode dTagLower = "surf" ∧ detectGamemode dTagUpper = "public" := by
  exact ⟨by decide, by decide⟩

/-- C8, amended: tag data is reduced to a token list before matching
(a list as-is, a comma string split on commas, anything else the empty
list) and classification depends on tag data only through that token
list — a record whose tokens agree with the comma-split of a string `s`
classifies exactly as if the tags had arrived as the raw string `s`.
The tokens are not lowercased. -/
theorem tags_normalized_to_tokens (d : ServerData) (s : String)
    (h : tagTokens d.rawTags = splitComma s) :
    detectGamemode d = detectGamemode { d with rawTags := some (Sum.inr s) } := by
  cases d
  simp only [detectGamemode] at *
  rw [show tagTokens (some (Sum.inr s)) = splitComma s from rfl, ← h]

/-- Witness for `tags_normalized_to_tokens` at a concrete input. -/
theorem tags_normalized_to_tokens_witness :
    tagTokens dTagList.rawTags = splitComma "a,b"
    ∧ detectGamemode dTagList
        = detectGamemode { dTagList with rawTags := some (Sum.inr "a,b") } := by
  refine ⟨by decide, ?_⟩
  exact tags_normalized_to_tokens dTagList "a,b" (by decide)

/-! ## Concrete reconciler inputs used by the witnesses -/

def p0 : HitPayload :=
  { addr := "1.2.3.4:27015", ip := "1.2.3.4", port := 27015, query_port := 27015,
    steam_id := none, name := "srv", map := "de_dust2", gamemode := "public",
    password := false, vac := false, version := none, players := 0,
    max_players := 10, bots := 0, ping := 20 }

/-- The record created by a first successful probe at time 0. -/
def rOn0 : ServerRecord := reconcileHit p0 0 none

/-- `rOn0` after two Miss cycles: still online, `missed_count = 2`. -/
def rLive : ServerRecord := { rOn0 with seen_count := 0, missed_count := 2, updated_at := 1 }

/-- `rOn0` after three Miss cycles (threshold 3): offline since time 1. -/
def rOffW : ServerRecord :=
  { rOn0 with
    status := Status.offline, offline_since := some 1,
    seen_count := 0, missed_count := 3, updated_at := 1 }

/-- An offline record whose age at `now = 7` is exactly the 7-day
retention window. -/
def rBoundary : ServerRecord := { rOn0 with status := Status.offline, offline_since := some 0 }

/-- An offline record strictly older than the retention window at
`now = 7`. -/
def rOld : ServerRecord := { rOn0 with status := Status.offline, offline_since := some (-1) }

/-! ## Counter-exclusivity helpers -/

theorem counterExcl_of_seen_zero (r : ServerRecord) (h : r.seen_count = 0) : counterExcl r :=
  ⟨fun hs => absurd (h ▸ hs) (Nat.lt_irrefl 0), fun _ => h⟩

theorem counterExcl_of_missed_zero (r : ServerRecord) (h : r.missed_count = 0) : counterExcl r :=
  ⟨fun _ => h, fun hm => absurd (h ▸ hm) (Nat.lt_irrefl 0)⟩

/-- C6: after any reconciliation, Hit or Miss, the counters of the
resulting record are mutually exclusive: a positive `seen_count` forces
`missed_count = 0` and a positive `missed_count` forces
`seen_count = 0` (a Hit always writes `missed_count = 0`, a Miss always
writes `seen_count = 0`). -/
theorem counters_mutually_exclusive (threshold : Nat) (p : HitPayload) (now : Int)
    (s : Option ServerRecord) :
    counterExcl (reconcileHit p now s) ∧ counterExclOpt (reconcileMiss threshold now s) := by
  constructor
  · exact counterExcl_of_missed_zero _ rfl
  · cases s with
    | none => trivial
    | some r =>
      simp only [reconcileMiss]
      split
      · exact counterExcl_of_seen_zero _ rfl
      · exact counterExcl_of_seen_zero _ rfl

/-- C1, code evaluation at the failing input: for a Hit whose upsert
returns a store error, the record is not left unchanged — starting from
an online record with `missed_count = 2` (threshold 3), the cycle still
increments `seen_count` via the RPC, then the thrown error is handled by
the probe-failure path, which zeroes `seen_count`, bumps `missed_count`
to 3 and flips the live server to offline. -/
theorem hit_store_error_mutates :
    reconcileHitUpsertErr 3 11 (some rLive)
      = some { rLive with
               seen_count := 0, missed_count := 3, updated_at := 11,
               status := Status.offline, offline_since := some 11 }
    ∧ rLive.status = Status.online := by
  exact ⟨by decide, rfl⟩

/-- C5: a further Miss on an already-offline record increments
`missed_count` and zeroes `seen_count` but leaves `offline_since` (and
every other field except `updated_at`) unchanged — the demotion
transition fires at most once per offline episode. -/
theorem miss_while_offline_keeps_since (threshold : Nat) (now : Int) (r : ServerRecord)
    (h : r.status = Status.offline) :
    reconcileMiss threshold now (some r)
      = some { r with
               missed_count := r.missed_count + 1, seen_count := 0,
               updated_at := now } := by
  simp only [reconcileMiss]
  rw [if_neg (fun hc => hc.2 h)]

/-- Witness for `miss_while_offline_keeps_since` at a concrete offline
record. -/
theorem miss_while_offline_keeps_since_witness :
    rOffW.status = Status.offline
    ∧ reconcileMiss 3 7 (some rOffW)
        = some { rOffW with
                 missed_count := rOffW.missed_count + 1, seen_count := 0,
                 updated_at := 7 } := by
  exact ⟨rfl, miss_while_offline_keeps_since 3 7 rOffW rfl⟩

/-- C7: replaying the same Hit outcome twice in a row (at times
`t1 ≤ t2`) yields the same record as replaying it once on every field
except `seen_count` (strictly increased by the second application) and
`updated_at` (monotonically increased). -/
theorem hit_twice_same_as_once (p : HitPayload) (t1 t2 : Int) (h : t1 ≤ t2)
    (s : Option ServerRecord) :
    reconcileHit p t2 (some (reconcileHit p t1 s))
      = { reconcileHit p t1 s with
          seen_count := (reconcileHit p t1 s).seen_count + 1, updated_at := t2 }
    ∧ (reconcileHit p t1 s).seen_count
        < (reconcileHit p t2 (some (reconcileHit p t1 s))).seen_count
    ∧ (reconcileHit p t1 s).updated_at
        ≤ (reconcileHit p t2 (some (reconcileHit p t1 s))).updated_at := by
  refine ⟨rfl, ?_, ?_⟩
  · have h1 : (reconcileHit p t2 (some (reconcileHit p t1 s))).seen_count
        = (reconcileHit p t1 s).seen_count + 1 := rfl
    omega
  · have h1 : (reconcileHit p t1 s).updated_at = t1 := rfl
    have h2 : (reconcileHit p t2 (some (reconcileHit p t1 s))).updated_at = t2 := rfl
    omega

/-- Witness for `hit_twice_same_as_once` at a concrete payload and
times 1 ≤ 2, starting from no record. -/
theorem hit_twice_same_as_once_witness :
    (1 : Int) ≤ 2
    ∧ (reconcileHit p0 2 (some (reconcileHit p0 1 none))
        = { reconcileHit p0 1 none with
            seen_count := (reconcileHit p0 1 none).seen_count + 1, updated_at := 2 }
      ∧ (reconcileHit p0 1 none).seen_count
          < (reconcileHit p0 2 (some (reconcileHit p0 1 none))).seen_count
      ∧ (reconcileHit p0 1 none).updated_at
          ≤ (reconcileHit p0 2 (some (reconcileHit p0 1 none))).updated_at) := by
  exact ⟨by decide, hit_twice_same_as_once p0 1 2 (by decide) none⟩

/-! ## Reaper theorems -/

theorem length_filter_split {α : Type} (p : α → Bool) (l : List α) :
    (l.filter p).length + (l.filter (fun a => !(p a))).length = l.length := by
  induction l with
  | nil => rfl
  | cons a l ih =>
    cases h : p a <;> simp [List.filter_cons, h] <;> omega

theorem reapDelete_iff (cutoff : Int) (r : ServerRecord) :
    reapDelete cutoff r = true ↔
      r.status = Status.offline ∧ ∃ t, r.offline_since = some t ∧ t < cutoff := by
  unfold reapDelete
  cases hs : r.status <;> cases ho : r.offline_since <;> simp [hs, ho]

/-- C2, amended: the sweep deletes a stored record if and only if its
status is offline and its age `now − offlineSince` is STRICTLY greater
than `retentionDays` (the source compares `offline_since < cutoff`
strictly); records with status online are never deleted, and the
returned count is exactly the number of records removed. -/
theorem sweep_deletes_iff (retentionDays : Nat) (now : Int) (store : List ServerRecord)
    (r : ServerRecord) (hmem : r ∈ store) :
    (r ∉ (sweep retentionDays now store).1 ↔
      r.status = Status.offline ∧
        ∃ t, r.offline_since = some t ∧ (retentionDays : Int) < now - t)
    ∧ (sweep retentionDays now store).2 + (sweep retentionDays now store).1.length
        = store.length := by
  constructor
  · have hchar : r ∉ (sweep retentionDays now store).1 ↔
        reapDelete (now - (retentionDays : Int)) r = true := by
      simp only [sweep]
      rw [List.mem_filter]
      simp [hmem]
    rw [hchar, reapDelete_iff]
    constructor
    · rintro ⟨hs, t, ht, hlt⟩
      exact ⟨hs, t, ht, by omega⟩
    · rintro ⟨hs, t, ht, hlt⟩
      exact ⟨hs, t, ht, by omega⟩
  · simp only [sweep]
    exact length_filter_split _ store

/-- C2, counterexample to the boundary case: a record that has been
offline for exactly `retentionDays` (= 7) days at sweep time is NOT
deleted — the claim requires deletion at `age ≥ retentionDays`, but the
sweep keeps the record and reports 0 deletions. -/
theorem sweep_keeps_exact_boundary :
    rBoundary.status = Status.offline
    ∧ rBoundary.offline_since = some 0
    ∧ ((7 : Nat) : Int) ≤ 7 - 0
    ∧ (sweep 7 7 [rBoundary]).1 = [rBoundary]
    ∧ (sweep 7 7 [rBoundary]).2 = 0 := by
  refine ⟨rfl, rfl, by decide, by decide, by decide⟩

/-- Witness for `sweep_deletes_iff` on a two-record store containing a
record strictly past the retention window. -/
theorem sweep_deletes_iff_witness :
    rOld ∈ [rBoundary, rOld]
    ∧ ((rOld ∉ (sweep 7 7 [rBoundary, rOld]).1 ↔
          rOld.status = Status.offline ∧
            ∃ t, rOld.offline_since = some t ∧ ((7 : Nat) : Int) < 7 - t)
       ∧ (sweep 7 7 [rBoundary, rOld]).2 + (sweep 7 7 [rBoundary, rOld]).1.length
           = ([rBoundary, rOld] : List ServerRecord).length) := by
  refine ⟨by decide, ?_⟩
  exact sweep_deletes_iff 7 7 [rBoundary, rOld] rOld (by decide)

/-! ## Offline-threshold theorems -/

theorem reconcileMiss_some_below (threshold : Nat) (now : Int) (q : ServerRecord)
    (h : q.missed_count + 1 < threshold) :
    reconcileMiss threshold now (some q)
      = some { q with
               missed_count := q.missed_count + 1, seen_count := 0,
               updated_at := now } := by
  simp only [reconcileMiss]
  rw [if_neg (fun hc => absurd hc.1 (by omega))]

theorem reconcileMiss_some_fire (threshold : Nat) (now : Int) (q : ServerRecord)
    (hth : threshold ≤ q.missed_count + 1) (hs : q.status ≠ Status.offline) :
    reconcileMiss threshold now (some q)
      = some { q with
               missed_count := q.missed_count + 1, seen_count := 0,
               updated_at := now, status := Status.offline,
               offline_since := some now } := by
  simp only [reconcileMiss]
  rw [if_pos ⟨hth, hs⟩]

theorem applyMisses_below (threshold : Nat) (now : Int) (r : ServerRecord)
    (hm0 : r.missed_count = 0) :
    ∀ k, k + 1 < threshold →
      applyMisses threshold now (k + 1) (some r)
        = some { r with missed_count := k + 1, seen_count := 0, updated_at := now } := by
  intro k
  induction k with
  | zero =>
    intro hk
    show reconcileMiss threshold now (applyMisses threshold now 0 (some r)) = _
    rw [show applyMisses threshold now 0 (some r) = some r from rfl]
    rw [reconcileMiss_some_below threshold now r (by omega)]
    rw [hm0]
  | succ n ih =>
    intro hk
    show reconcileMiss threshold now (applyMisses threshold now (n + 1) (some r)) = _
    rw [ih (by omega)]
    rw [reconcileMiss_some_below threshold now
      { r with missed_count := n + 1, seen_count := 0, updated_at := now }
      (show n + 1 + 1 < threshold from hk)]

theorem applyMisses_threshold (threshold : Nat) (now : Int) (r : ServerRecord)
    (hs : r.status = Status.online) (hm0 : r.missed_count = 0) (hth : 1 ≤ threshold) :
    applyMisses threshold now threshold (some r)
      = some { r with
               missed_count := threshold, seen_count := 0, updated_at := now,
               status := Status.offline, offline_since := some now } := by
  match threshold, hth with
  | 1, _ =>
    show reconcileMiss 1 now (applyMisses 1 now 0 (some r)) = _
    rw [show applyMisses 1 now 0 (some r) = some r from rfl]
    rw [reconcileMiss_some_fire 1 now r (by omega)
      (by rw [hs]; exact fun h => Status.noConfusion h)]
    rw [hm0]
  | m + 2, _ =>
    show reconcileMiss (m + 2) now (applyMisses (m + 2) now (m + 1) (some r)) = _
    rw [applyMisses_below (m + 2) now r hm0 m (by omega)]
    rw [reconcileMiss_some_fire (m + 2) now
      { r with missed_count := m + 1, seen_count := 0, updated_at := now }
      (show m + 2 ≤ m + 1 + 1 from by omega)
      (show r.status ≠ Status.offline from by rw [hs]; exact fun h => Status.noConfusion h)]

/-- C3: from an online record with `missed_count = 0`, each of the
first `threshold − 1` misses leaves the record online with
`missed_count = k` and `seen_count = 0`; the `threshold`-th consecutive
miss — and exactly that one — demotes it to offline with
`offline_since` set; and `threshold − 1` misses followed by a Hit leave
the record online with `missed_count` reset to 0. -/
theorem offline_threshold_behavior (threshold : Nat) (now tHit : Int) (p : HitPayload)
    (r : ServerRecord) (hth : 1 ≤ threshold)
    (hs : r.status = Status.online) (hm0 : r.missed_count = 0) :
    (∀ k, 1 ≤ k → k < threshold →
      applyMisses threshold now k (some r)
        = some { r with missed_count := k, seen_count := 0, updated_at := now })
    ∧ applyMisses threshold now threshold (some r)
        = some { r with
                 missed_count := threshold, seen_count := 0, updated_at := now,
                 status := Status.offline, offline_since := some now }
    ∧ ∃ q, applyMisses threshold now (threshold - 1) (some r) = some q
        ∧ (reconcileHit p tHit (some q)).status = Status.online
        ∧ (reconcileHit p tHit (some q)).missed_count = 0 := by
  refine ⟨?_, applyMisses_threshold threshold now r hs hm0 hth, ?_⟩
  · intro k hk1 hk2
    obtain ⟨n, rfl⟩ : ∃ n, k = n + 1 := ⟨k - 1, by omega⟩
    exact applyMisses_below threshold now r hm0 n hk2
  · rcases Nat.lt_or_ge 1 threshold with hgt | hle
    · obtain ⟨m, hm⟩ : ∃ m, threshold - 1 = m + 1 := ⟨threshold - 2, by omega⟩
      refine ⟨{ r with missed_count := m + 1, seen_count := 0, updated_at := now },
        ?_, rfl, rfl⟩
      rw [hm]
      exact applyMisses_below threshold now r hm0 m (by omega)
    · have h1 : threshold = 1 := by omega
      subst h1
      exact ⟨r, rfl, rfl, rfl⟩

/-- Witness for `offline_threshold_behavior` with the default threshold
3, starting from a freshly created record. -/
theorem offline_threshold_behavior_witness :
    ((1 : Nat) ≤ 3 ∧ rOn0.status = Status.online ∧ rOn0.missed_count = 0)
    ∧ applyMisses 3 5 2 (some rOn0)
        = some { rOn0 with missed_count := 2, seen_count := 0, updated_at := 5 }
    ∧ applyMisses 3 5 3 (some rOn0)
        = some { rOn0 with
                 missed_count := 3, seen_count := 0, updated_at := 5,
                 status := Status.offline, offline_since := some 5 }
    ∧ ∃ q, applyMisses 3 5 2 (some rOn0) = some q
        ∧ (reconcileHit p0 6 (some q)).status = Status.online
        ∧ (reconcileHit p0 6 (some q)).missed_count = 0 := by
  have h := offline_threshold_behavior 3 5 6 p0 rOn0 (by decide) rfl rfl
  exact ⟨⟨by decide, rfl, rfl⟩, h.1 2 (by decide) (by decide), h.2.1, h.2.2⟩

/-! ## Hit-on-offline theorems -/

theorem reach_offline_seen_zero {threshold : Nat} {s : Option ServerRecord}
    (h : Reach threshold s) (r : ServerRecord) (hr : s = some r)
    (hoff : r.status = Status.offline) : r.seen_count = 0 := by
  cases h with
  | init => exact Option.noConfusion hr
  | hit p now hprev =>
    obtain rfl : _ = r := Option.some.inj hr
    exact absurd hoff (fun hh => Status.noConfusion hh)
  | miss now hprev =>
    rename_i s0
    cases s0 with
    | none => exact Option.noConfusion hr
    | some q =>
      simp only [reconcileMiss] at hr
      split at hr
      · obtain rfl : _ = r := Option.some.inj hr
        rfl
      · obtain rfl : _ = r := Option.some.inj hr
        rfl

/-- C4: a Hit on a reachable offline record transitions it to online,
clears `offline_since`, resets `missed_count` to 0 and ends with
`seen_count = 1` — the offline record necessarily has `seen_count = 0`
(every Miss write zeroes it) and the Hit increments it once. -/
theorem hit_on_offline_record (threshold : Nat) (p : HitPayload) (now : Int)
    (r : ServerRecord) (hreach : Reach threshold (some r))
    (hoff : r.status = Status.offline) :
    (reconcileHit p now (some r)).status = Status.online
    ∧ (reconcileHit p now (some r)).offline_since = none
    ∧ (reconcileHit p now (some r)).missed_count = 0
    ∧ (reconcileHit p now (some r)).seen_count = 1 := by
  refine ⟨rfl, rfl, rfl, ?_⟩
  have h0 : r.seen_count = 0 := reach_offline_seen_zero hreach r rfl hoff
  show r.seen_count + 1 = 1
  omega

/-- Witness for `hit_on_offline_record` at the offline record reached
by one Hit and three Misses with threshold 3. -/
theorem hit_on_offline_record_witness :
    rOffW.status = Status.offline
    ∧ ((reconcileHit p0 9 (some rOffW)).status = Status.online
       ∧ (reconcileHit p0 9 (some rOffW)).offline_since = none
       ∧ (reconcileHit p0 9 (some rOffW)).missed_count = 0
       ∧ (reconcileHit p0 9 (some rOffW)).seen_count = 1) := by
  refine ⟨rfl, ?_⟩
  exact hit_on_offline_record 3 p0 9 rOffW
    (Reach.miss 1 (Reach.miss 1 (Reach.miss 1 (Reach.hit p0 0 Reach.init)))) rfl

end CS2
